import Mathlib

/-!
Verification of the MLIR AsmParser name-resolution and graph-construction
layer (mlir/lib/AsmParser/Parser.cpp, class OperationParser) against its
specification.  The definitions below are a shallow embedding of the
source: source locations (llvm SMLoc pointers) become naturals, Block and
Value identities become naturals, types become naturals, and the DenseMap
and StringMap side tables become association lists.  The doc comment of each
definition names the source function it embeds.
-/

namespace AsmParserModel

/-- A diagnostic as emitted through emitError: primary source location and
message, plus at most one attached note (location and text). -/
structure Diag where
  loc : Nat
  msg : String
  noteLoc : Option Nat := none
  noteMsg : Option String := none
deriving DecidableEq, Repr

/-- Association-list lookup, modelling DenseMap and StringMap lookup. -/
def lookupKey {α : Type} (id : String) : List (String × α) → Option α
  | [] => none
  | (k, v) :: rest => if k = id then some v else lookupKey id rest

/-- Association-list update or insert, modelling map assignment. -/
def setKey {α : Type} (id : String) (a : α) : List (String × α) → List (String × α)
  | [] => [(id, a)]
  | (k, v) :: rest => if k = id then (k, a) :: rest else (k, v) :: setKey id a rest

/-- Ascending insertion into a sorted list of source locations; together with
sortLocs this models llvm array_pod_sort over SMLoc pointers. -/
def insertLoc (x : Nat) : List Nat → List Nat
  | [] => [x]
  | y :: ys => if x ≤ y then x :: y :: ys else y :: insertLoc x ys

/-- Sort source locations ascending (array_pod_sort on const char pointers). -/
def sortLocs : List Nat → List Nat
  | [] => []
  | x :: xs => insertLoc x (sortLocs xs)

/-- Lexicographic comparison of (source location, object identity) pairs, the
order array_pod_sort uses on std pairs of pointers. -/
def pairLe (a b : Nat × Nat) : Bool :=
  if a.1 < b.1 then true
  else if b.1 < a.1 then false
  else decide (a.2 ≤ b.2)

/-- Ascending insertion of a (location, identity) pair. -/
def insertPair (x : Nat × Nat) : List (Nat × Nat) → List (Nat × Nat)
  | [] => [x]
  | y :: ys => if pairLe x y then x :: y :: ys else y :: insertPair x ys

/-- Sort (location, identity) pairs ascending (array_pod_sort). -/
def sortPairs : List (Nat × Nat) → List (Nat × Nat)
  | [] => []
  | x :: xs => insertPair x (sortPairs xs)

/-- An attribute value bound to an alias: either a LocationAttr carrying a
location, or some other attribute kind (its printed form kept). -/
inductive MAttr where
  | locAttr (l : Nat)
  | other (s : String)
deriving DecidableEq, Repr

/-- The location carried by an operation or block argument: either an
ordinary location, or the OpaqueLoc marker (typeID DeferredLocInfo) holding
an index into deferredLocsReferences. -/
inductive MLoc where
  | known (l : Nat)
  | deferred (idx : Nat)
deriving DecidableEq, Repr

/-- OperationParser::DeferredLocInfo: source location of the loc reference
and the alias identifier it names. -/
structure DeferredLocInfo where
  loc : Nat
  identifier : String
deriving DecidableEq, Repr

/-- Indexing into deferredLocsReferences, as in the vector subscript at the
start of the resolveLocation closure of finalize.  Every marker is created with
an in-range index, so the out-of-range default is never reached by markers
the parser itself built. -/
def getDeferredInfo (refs : List DeferredLocInfo) (n : Nat) : DeferredLocInfo :=
  match refs, n with
  | [], _ => ⟨0, ""⟩
  | r :: _, 0 => r
  | _ :: rest, n + 1 => getDeferredInfo rest n

/-- OperationParser::parseLocationAlias: resolve a loc alias now if its
definition is already known (failing if it is not a location), otherwise
record a deferred-location reference and hand back an OpaqueLoc marker
indexing it. -/
def parseLocationAlias (aliases : List (String × MAttr)) (refs : List DeferredLocInfo)
    (tokLoc : Nat) (identifier : String) :
    Except Diag (MLoc × List DeferredLocInfo) :=
  match lookupKey identifier aliases with
  | some (.locAttr l) => .ok (.known l, refs)
  | some (.other s) =>
      .error ⟨tokLoc, "expected location, but found " ++ s, none, none⟩
  | none => .ok (.deferred refs.length, refs ++ [⟨tokLoc, identifier⟩])

/-- The resolveLocation closure inside OperationParser::finalize: ordinary
locations pass through; a deferred marker is looked up among the (now fully
parsed) alias definitions. -/
def resolveLocation (aliases : List (String × MAttr)) (refs : List DeferredLocInfo) :
    MLoc → Except Diag MLoc
  | .known l => .ok (.known l)
  | .deferred idx =>
    let info := getDeferredInfo refs idx
    match lookupKey info.identifier aliases with
    | none => .error ⟨info.loc, "operation location alias was never defined", none, none⟩
    | some (.locAttr l) => .ok (.known l)
    | some (.other s) =>
        .error ⟨info.loc, "expected location, but found " ++ s, none, none⟩

/-- The walk over every operation and block argument in finalize; the walk
is interrupted at the first location that fails to resolve. -/
def walkResolve (aliases : List (String × MAttr)) (refs : List DeferredLocInfo) :
    List MLoc → Except Diag (List MLoc)
  | [] => .ok []
  | l :: ls =>
    match resolveLocation aliases refs l with
    | .error d => .error d
    | .ok l2 =>
      match walkResolve aliases refs ls with
      | .error d => .error d
      | .ok ls2 => .ok (l2 :: ls2)

/-- Result of popping a name scope: diagnostics, the (block, container)
attachment pairs performed for cleanup, the remaining stack, and whether the
pop succeeded.  Containers are numbered; container 0 stands for region 0 of
the top-level operation. -/
structure PopResult where
  diags : List Diag
  attached : List (Nat × Nat)
  rest : List (List (Nat × Nat))
  success : Bool
deriving DecidableEq, Repr

/-- OperationParser::popSSANameScope, restricted to the block forward
reference table it pops: if any referenced block was never defined, every
such block is appended to region 0 of the top-level operation for cleanup,
the errors are sorted ascending by (first-use location, block identity) and
reported, and the pop fails. -/
def popSSANameScope : List (List (Nat × Nat)) → PopResult
  | [] => ⟨[], [], [], true⟩
  | top :: rest =>
    match top with
    | [] => ⟨[], [], rest, true⟩
    | _ :: _ =>
      let errors := sortPairs (top.map (fun p => (p.2, p.1)))
      ⟨errors.map (fun p => (⟨p.1, "reference to an undefined block", none, none⟩ : Diag)),
       top.map (fun p => (p.1, 0)),
       rest, false⟩

/-- The attachment behaviour the specification describes for the scope pop,
kept for comparison with popSSANameScope: identical except that orphaned
blocks are attached to the nearest enclosing container of the popped scope
instead of region 0 of the top-level operation. -/
def popSSANameScopeSpecVersion (nearestEnclosingContainer : Nat) :
    List (List (Nat × Nat)) → PopResult
  | [] => ⟨[], [], [], true⟩
  | top :: rest =>
    match top with
    | [] => ⟨[], [], rest, true⟩
    | _ :: _ =>
      let errors := sortPairs (top.map (fun p => (p.2, p.1)))
      ⟨errors.map (fun p => (⟨p.1, "reference to an undefined block", none, none⟩ : Diag)),
       top.map (fun p => (p.1, nearestEnclosingContainer)),
       rest, false⟩

/-- The parser state OperationParser::finalize reads: the remaining forward
reference placeholders with their first-use locations, the location of every
operation and block argument of the parsed graph (in walk order), the
deferred-location records, the alias definitions accumulated by the symbol
table, the undefined-block table of the top name scope, and the external
verification outcome. -/
structure FinalizeState where
  forwardRefPlaceholders : List (Nat × Nat)
  opOrArguments : List MLoc
  deferredLocsReferences : List DeferredLocInfo
  attributeAliasDefinitions : List (String × MAttr)
  forwardRefTop : List (Nat × Nat)
  shouldVerifyAfterParse : Bool
  verifyOk : Bool
deriving DecidableEq, Repr

/-- Result of finalize: the diagnostics emitted, the patched locations, the
cleanup attachments performed by the final scope pop, and overall success. -/
structure FinalizeResult where
  diags : List Diag
  newLocs : List MLoc
  attached : List (Nat × Nat)
  success : Bool
deriving DecidableEq, Repr

/-- OperationParser::finalize: first, if any forward-reference placeholder
remains, report one undeclared-value error per placeholder sorted ascending
by source location and fail; otherwise resolve deferred locations over the
whole graph (interrupting at the first failure), then pop the top-level
name scope, then run the external verifier when requested. -/
def finalize (st : FinalizeState) : FinalizeResult :=
  match st.forwardRefPlaceholders with
  | _ :: _ =>
    let errs := sortLocs (st.forwardRefPlaceholders.map (fun p => p.2))
    ⟨errs.map (fun l => (⟨l, "use of undeclared SSA value name", none, none⟩ : Diag)),
     st.opOrArguments, [], false⟩
  | [] =>
    match walkResolve st.attributeAliasDefinitions st.deferredLocsReferences
        st.opOrArguments with
    | .error d => ⟨[d], st.opOrArguments, [], false⟩
    | .ok newLocs =>
      let popRes := popSSANameScope [st.forwardRefTop]
      if popRes.success then
        if st.shouldVerifyAfterParse && !st.verifyOk then ⟨[], newLocs, [], false⟩
        else ⟨[], newLocs, [], true⟩
      else ⟨popRes.diags, newLocs, popRes.attached, false⟩

/-- A finalize state for a source file whose graph is a single operation
carrying the given location, with no remaining value placeholders and no
undefined blocks; verification is treated as an external collaborator and
not requested. -/
def singleOpFinalizeState (aliases : List (String × MAttr))
    (refs : List DeferredLocInfo) (l : MLoc) : FinalizeState :=
  ⟨[], [l], refs, aliases, [], false, true⟩

/-- Finalize state of a parse that left one value placeholder (first used at
location 5) and one deferred location reference (at location 9) naming an
alias that is never defined. -/
def placeholderAndLocState : FinalizeState :=
  ⟨[(0, 5)], [.deferred 0], [⟨9, "L"⟩], [], [], false, true⟩

/-- Finalize state of a parse with no remaining value placeholder but one
deferred location reference (at location 4) naming an alias that is never
defined. -/
def unresolvedLocOnlyState : FinalizeState :=
  ⟨[], [.deferred 0], [⟨4, "L"⟩], [], [], false, true⟩

/-- Finalize state of a fully resolved parse. -/
def cleanState : FinalizeState :=
  ⟨[], [.known 1], [], [], [], false, true⟩

/-- A Value during parsing: its identity and its static type. -/
structure MValue where
  id : Nat
  type : Nat
deriving DecidableEq, Repr

/-- OperationParser::ValueDefinition: the value bound at an entry of the
value table and the location it was bound at. -/
structure ValueDefinition where
  value : MValue
  loc : Nat
deriving DecidableEq, Repr

/-- OpAsmParser::UnresolvedOperand: textual name, result number, and the
source location of the reference. -/
structure UnresolvedOperand where
  name : String
  number : Nat
  location : Nat
deriving DecidableEq, Repr

/-- The per-name entry vector: element n is the binding for result number n,
none standing for a slot whose Value is still null. -/
def getEntry (entries : List (Option ValueDefinition)) (n : Nat) :
    Option ValueDefinition :=
  match entries, n with
  | [], _ => none
  | e :: _, 0 => e
  | _ :: rest, n + 1 => getEntry rest n

/-- Assign slot n of the entry vector (in range after a resize). -/
def setEntry (entries : List (Option ValueDefinition)) (n : Nat)
    (vd : ValueDefinition) : List (Option ValueDefinition) :=
  match entries, n with
  | [], _ => []
  | _ :: rest, 0 => some vd :: rest
  | e :: rest, n + 1 => e :: setEntry rest n vd

/-- The entries.resize(number + 1) step guarded by size <= number. -/
def resize (entries : List (Option ValueDefinition)) (n : Nat) :
    List (Option ValueDefinition) :=
  if entries.length ≤ n then
    entries ++ List.replicate (n + 1 - entries.length) none
  else entries

/-- The isolated name scope state the SSA handling routines touch: the
per-name value tables of the current isolated scope, the placeholder side
table with first-reference locations, and a counter supplying fresh value
identities. -/
structure SSAState where
  values : List (String × List (Option ValueDefinition))
  forwardRefPlaceholders : List (Nat × Nat)
  nextValueId : Nat
deriving DecidableEq, Repr

/-- OperationParser::getSSAValueEntry: the entry vector for a name in the
current isolated scope (a fresh empty vector if the name is new). -/
def getSSAValueEntry (st : SSAState) (name : String) :
    List (Option ValueDefinition) :=
  (lookupKey name st.values).getD []

/-- OperationParser::isForwardRefPlaceholder. -/
def isForwardRefPlaceholder (st : SSAState) (v : MValue) : Bool :=
  st.forwardRefPlaceholders.any (fun p => p.1 == v.id)

/-- OperationParser::createForwardRefPlaceholder: make a fresh value of the
asserted type and remember it, with its first-reference location, in the
placeholder side table. -/
def createForwardRefPlaceholder (st : SSAState) (loc : Nat) (ty : Nat) :
    SSAState × MValue :=
  let v : MValue := ⟨st.nextValueId, ty⟩
  ({ st with
      forwardRefPlaceholders := st.forwardRefPlaceholders ++ [(v.id, loc)],
      nextValueId := st.nextValueId + 1 }, v)

/-- OperationParser::resolveSSAUse: return the existing binding if the types
agree (error otherwise, with a note at the prior binding); flag a result
number past the results of an already-defined name; otherwise allocate a
placeholder of the expected type and bind it at the use location. -/
def resolveSSAUse (st : SSAState) (u : UnresolvedOperand) (ty : Nat) :
    SSAState × Except Diag MValue :=
  let entries := getSSAValueEntry st u.name
  match getEntry entries u.number with
  | some vd =>
    if vd.value.type = ty then (st, .ok vd.value)
    else
      (st, .error ⟨u.location,
        "use of value " ++ u.name ++ " expects different type than prior uses",
        some vd.loc, some ("prior use here")⟩)
  | none =>
    let entries1 := resize entries u.number
    let invalidNumber :=
      match getEntry entries1 0 with
      | some vd0 => !(isForwardRefPlaceholder st vd0.value)
      | none => false
    if invalidNumber then
      (st, .error ⟨u.location, "reference to invalid result number", none, none⟩)
    else
      let p := createForwardRefPlaceholder st u.location ty
      ({ p.1 with
          values := setKey u.name
            (setEntry entries1 u.number ⟨p.2, u.location⟩) p.1.values },
       .ok p.2)

/-- OperationParser::addDefinition: reject redefinition of a real value
(note at the prior definition); when the slot holds a placeholder, require
the type of the placeholder to match the definition (note at the first use) and
then replace it, dropping it from the placeholder table; otherwise just
record the binding.  The error paths return no state because the parse
aborts there. -/
def addDefinition (st : SSAState) (u : UnresolvedOperand) (value : MValue) :
    SSAState × Except Diag Unit :=
  let entries := resize (getSSAValueEntry st u.name) u.number
  match getEntry entries u.number with
  | some vd =>
    if !(isForwardRefPlaceholder st vd.value) then
      (st, .error ⟨u.location, "redefinition of SSA value " ++ u.name,
        some vd.loc, some ("previously defined here")⟩)
    else if vd.value.type ≠ value.type then
      (st, .error ⟨u.location,
        "definition of SSA value " ++ u.name ++ " has type " ++ toString value.type,
        some vd.loc,
        some ("previously used here with type " ++ toString vd.value.type)⟩)
    else
      ({ values := setKey u.name (setEntry entries u.number ⟨value, u.location⟩)
            st.values,
         forwardRefPlaceholders :=
           st.forwardRefPlaceholders.filter (fun p => p.1 != vd.value.id),
         nextValueId := st.nextValueId }, .ok ())
  | none =>
    ({ st with
        values := setKey u.name (setEntry entries u.number ⟨value, u.location⟩)
          st.values }, .ok ())

/-- OperationParser::BlockDefinition: the block bound to a label (none while
the label is only known by name) and the location of its first mention. -/
structure BlockDefinition where
  block : Option Nat
  loc : Nat
deriving DecidableEq, Repr

/-- The per-scope block registry: label table, forward-reference table with
first-use locations, and a counter supplying fresh block identities. -/
structure BlockScopeState where
  blocksByName : List (String × BlockDefinition)
  forwardRef : List (Nat × Nat)
  nextBlockId : Nat
deriving DecidableEq, Repr

/-- OperationParser::getBlockInfoByName: the (default-constructed when
absent) entry of the innermost block table. -/
def getBlockInfoByName (st : BlockScopeState) (name : String) : BlockDefinition :=
  (lookupKey name st.blocksByName).getD ⟨none, 0⟩

/-- OperationParser::getBlockNamed: return the block already bound to the
label, or create an empty unattached block, record it as a forward
reference at the use location, and return it. -/
def getBlockNamed (st : BlockScopeState) (name : String) (loc : Nat) :
    BlockScopeState × Nat :=
  let bd := getBlockInfoByName st name
  match bd.block with
  | some b => (st, b)
  | none =>
    let b := st.nextBlockId
    ({ blocksByName := setKey name ⟨some b, loc⟩ st.blocksByName,
       forwardRef := st.forwardRef ++ [(b, loc)],
       nextBlockId := st.nextBlockId + 1 }, b)

/-- The label-definition path of OperationParser::parseBlock (no caller
provided entry block): update the recorded definition location; a label
with no block yet gets a fresh block; defining a label whose block is a
pending forward reference erases the forward-reference entry and keeps the
same block; defining it again otherwise is a redefinition error.  The error
path returns no state because the parse aborts there. -/
def defineBlockNamed (st : BlockScopeState) (name : String) (nameLoc : Nat) :
    Except Diag (BlockScopeState × Nat) :=
  let bd0 := getBlockInfoByName st name
  match bd0.block with
  | none =>
    let b := st.nextBlockId
    .ok ({ blocksByName := setKey name ⟨some b, nameLoc⟩ st.blocksByName,
           forwardRef := st.forwardRef,
           nextBlockId := st.nextBlockId + 1 }, b)
  | some b =>
    if st.forwardRef.any (fun p => p.1 == b) then
      .ok ({ blocksByName := setKey name ⟨some b, nameLoc⟩ st.blocksByName,
             forwardRef := st.forwardRef.filter (fun p => p.1 != b),
             nextBlockId := st.nextBlockId }, b)
    else .error ⟨nameLoc, "redefinition of block " ++ name, none, none⟩

/-- One entry of an op-result list as lexed: the spelling and location of
the name token, and the count after an optional colon; none means no colon was
present, some none an integer token whose value does not fit in uint64,
some (some k) the value k. -/
structure ResultIdToken where
  name : String
  loc : Nat
  count : Option (Option Nat)
deriving DecidableEq, Repr

/-- The parseNextResult closure of OperationParser::parseOperation: a result
entry contributes a group of expectedSubResults results, defaulting to 1;
an explicit count must be an integer of value at least 1. -/
def parseNextResult (tok : ResultIdToken) : Except Diag (String × Nat × Nat) :=
  match tok.count with
  | none => .ok (tok.name, 1, tok.loc)
  | some none =>
    .error ⟨tok.loc, "expected named operation to have at least 1 result", none, none⟩
  | some (some k) =>
    if k < 1 then
      .error ⟨tok.loc, "expected named operation to have at least 1 result", none, none⟩
    else .ok (tok.name, k, tok.loc)

/-- The comma-separated result-list loop of OperationParser::parseOperation,
returning the ResultRecord list and numExpectedResults (the sum of the
declared group sizes). -/
def parseResultIdList (toks : List ResultIdToken) :
    Except Diag (List (String × Nat × Nat) × Nat) :=
  match toks with
  | [] => .ok ([], 0)
  | t :: ts =>
    match parseNextResult t with
    | .error d => .error d
    | .ok r =>
      match parseResultIdList ts with
      | .error d => .error d
      | .ok (rs, nsum) => .ok (r :: rs, r.2.1 + nsum)

/-- The post-creation result-binding check of OperationParser::parseOperation:
with a result-name list present, an operation producing no results cannot be
named, and the number of produced results must equal numExpectedResults. -/
def checkResultBinding (resultIDs : List (String × Nat × Nat))
    (numExpectedResults : Nat) (opLoc : Nat) (numResults : Nat) :
    Except Diag Unit :=
  match resultIDs with
  | [] => .ok ()
  | _ :: _ =>
    if numResults = 0 then
      .error ⟨opLoc, "cannot name an operation with no results", none, none⟩
    else if numExpectedResults ≠ numResults then
      .error ⟨opLoc, "operation defines " ++ toString numResults ++
        " results but was provided " ++ toString numExpectedResults ++ " to bind",
        none, none⟩
    else .ok ()

/-- Modelled from the spec: the OperationName trait query for the IsTerminator
trait is defined outside this source subset; the spec states that an
operation carries successors only when it is statically known to be a
terminator, a trait supplied by its dialect, so the query is modelled as a
per-operation boolean. -/
def mightHaveTraitIsTerminator (staticallyKnownTerminator : Bool) : Bool :=
  staticallyKnownTerminator

/-- The successor-list step of
OperationParser::parseGenericOperationAfterOpName: a bracketed successor
list on an operation without the terminator trait is an error; otherwise
the parsed successor blocks are attached to the operation state. -/
def parseSuccessorsSection (hasSuccessorList : Bool) (loc : Nat)
    (staticallyKnownTerminator : Bool) (successors : List Nat) :
    Except Diag (List Nat) :=
  if hasSuccessorList then
    if !(mightHaveTraitIsTerminator staticallyKnownTerminator) then
      .error ⟨loc, "successors in non-terminator", none, none⟩
    else .ok successors
  else .ok []

/-! Helper lemmas about the association lists, the sorts, and the entry
vectors. -/

theorem lookupKey_setKey_self {α : Type} (id : String) (a : α) (l : List (String × α)) :
    lookupKey id (setKey id a l) = some a := by
  induction l with
  | nil => simp [setKey, lookupKey]
  | cons p rest ih =>
    obtain ⟨k, v⟩ := p
    by_cases h : k = id
    · simp [setKey, lookupKey, h]
    · simp [setKey, lookupKey, h, ih]

theorem mem_insertLoc {a x : Nat} {l : List Nat} (h : a ∈ insertLoc x l) :
    a = x ∨ a ∈ l := by
  induction l with
  | nil => simpa [insertLoc] using h
  | cons y ys ih =>
    rw [insertLoc] at h
    by_cases hc : x ≤ y
    · rw [if_pos hc] at h
      simpa using h
    · rw [if_neg hc] at h
      rcases List.mem_cons.mp h with h1 | h1
      · exact Or.inr (by simp [h1])
      · rcases ih h1 with h2 | h2
        · exact Or.inl h2
        · exact Or.inr (List.mem_cons_of_mem _ h2)

theorem insertLoc_pairwise {x : Nat} {l : List Nat}
    (h : List.Pairwise (· ≤ ·) l) : List.Pairwise (· ≤ ·) (insertLoc x l) := by
  induction l with
  | nil => simp [insertLoc]
  | cons y ys ih =>
    rw [List.pairwise_cons] at h
    obtain ⟨hy, hys⟩ := h
    rw [insertLoc]
    by_cases hc : x ≤ y
    · rw [if_pos hc]
      refine List.Pairwise.cons ?_ (List.Pairwise.cons hy hys)
      intro b hb
      rcases List.mem_cons.mp hb with rfl | hb
      · exact hc
      · exact le_trans hc (hy b hb)
    · rw [if_neg hc]
      refine List.Pairwise.cons ?_ (ih hys)
      intro b hb
      rcases mem_insertLoc hb with rfl | hb
      · exact le_of_not_le hc
      · exact hy b hb

theorem sortLocs_pairwise (l : List Nat) : List.Pairwise (· ≤ ·) (sortLocs l) := by
  induction l with
  | nil => simp [sortLocs]
  | cons x xs ih => exact insertLoc_pairwise ih

theorem pairLe_fst {a b : Nat × Nat} (h : pairLe a b = true) : a.1 ≤ b.1 := by
  unfold pairLe at h
  split at h
  · omega
  · split at h
    · exact absurd h (by simp)
    · omega

theorem pairLe_fst_of_not {a b : Nat × Nat} (h : pairLe a b = false) : b.1 ≤ a.1 := by
  unfold pairLe at h
  split at h
  · exact absurd h (by simp)
  · omega

theorem mem_insertPair {a x : Nat × Nat} {l : List (Nat × Nat)}
    (h : a ∈ insertPair x l) : a = x ∨ a ∈ l := by
  induction l with
  | nil => simpa [insertPair] using h
  | cons y ys ih =>
    rw [insertPair] at h
    by_cases hc : pairLe x y = true
    · rw [if_pos hc] at h
      simpa using h
    · rw [if_neg hc] at h
      rcases List.mem_cons.mp h with h1 | h1
      · exact Or.inr (by simp [h1])
      · rcases ih h1 with h2 | h2
        · exact Or.inl h2
        · exact Or.inr (List.mem_cons_of_mem _ h2)

theorem insertPair_pairwise {x : Nat × Nat} {l : List (Nat × Nat)}
    (h : List.Pairwise (fun a b => a.1 ≤ b.1) l) :
    List.Pairwise (fun a b => a.1 ≤ b.1) (insertPair x l) := by
  induction l with
  | nil => simp [insertPair]
  | cons y ys ih =>
    rw [List.pairwise_cons] at h
    obtain ⟨hy, hys⟩ := h
    rw [insertPair]
    by_cases hc : pairLe x y = true
    · rw [if_pos hc]
      refine List.Pairwise.cons ?_ (List.Pairwise.cons hy hys)
      intro b hb
      rcases List.mem_cons.mp hb with rfl | hb
      · exact pairLe_fst hc
      · exact le_trans (pairLe_fst hc) (hy b hb)
    · rw [if_neg hc]
      refine List.Pairwise.cons ?_ (ih hys)
      intro b hb
      rcases mem_insertPair hb with rfl | hb
      · exact pairLe_fst_of_not (Bool.eq_false_iff.mpr hc)
      · exact hy b hb

theorem sortPairs_pairwise (l : List (Nat × Nat)) :
    List.Pairwise (fun a b => a.1 ≤ b.1) (sortPairs l) := by
  induction l with
  | nil => simp [sortPairs]
  | cons x xs ih => exact insertPair_pairwise ih

theorem insertPair_length (x : Nat × Nat) (l : List (Nat × Nat)) :
    (insertPair x l).length = l.length + 1 := by
  induction l with
  | nil => simp [insertPair]
  | cons y ys ih =>
    rw [insertPair]
    by_cases hc : pairLe x y = true
    · rw [if_pos hc]; simp
    · rw [if_neg hc]; simp [ih]

theorem sortPairs_length (l : List (Nat × Nat)) : (sortPairs l).length = l.length := by
  induction l with
  | nil => rfl
  | cons x xs ih => rw [sortPairs, insertPair_length, ih, List.length_cons]

theorem getDeferredInfo_append_length (refs : List DeferredLocInfo)
    (x : DeferredLocInfo) : getDeferredInfo (refs ++ [x]) refs.length = x := by
  induction refs with
  | nil => rfl
  | cons r rest ih => simpa [getDeferredInfo] using ih

theorem getEntry_replicate (k n : Nat) :
    getEntry (List.replicate k (none : Option ValueDefinition)) n = none := by
  induction k generalizing n with
  | zero => cases n <;> rfl
  | succ k ih =>
    cases n with
    | zero => rfl
    | succ n => simpa [List.replicate_succ, getEntry] using ih n

theorem setEntry_length (entries : List (Option ValueDefinition)) (n : Nat)
    (vd : ValueDefinition) : (setEntry entries n vd).length = entries.length := by
  induction entries generalizing n with
  | nil => rfl
  | cons e rest ih =>
    cases n with
    | zero => rfl
    | succ n => simpa [setEntry] using ih n

theorem getEntry_setEntry_self (entries : List (Option ValueDefinition))
    (n : Nat) (vd : ValueDefinition) (h : n < entries.length) :
    getEntry (setEntry entries n vd) n = some vd := by
  induction entries generalizing n with
  | nil => simp at h
  | cons e rest ih =>
    cases n with
    | zero => rfl
    | succ n =>
      simp only [List.length_cons, Nat.succ_lt_succ_iff] at h
      simpa [setEntry, getEntry] using ih n h

theorem resize_nil (n : Nat) :
    resize [] n = List.replicate (n + 1) (none : Option ValueDefinition) := by
  simp [resize]

/-- Resolving a use of a fresh name against a fresh parse state creates a
placeholder of the asserted type, bound at the use location. -/
theorem resolveSSAUse_fresh (name : String) (n L1 T1 : Nat) :
    resolveSSAUse ⟨[], [], 0⟩ ⟨name, n, L1⟩ T1 =
      (⟨[(name, setEntry (List.replicate (n + 1) none) n ⟨⟨0, T1⟩, L1⟩)],
        [(0, L1)], 1⟩, Except.ok ⟨0, T1⟩) := by
  unfold resolveSSAUse
  simp [getSSAValueEntry, lookupKey, getEntry, resize_nil, getEntry_replicate,
        createForwardRefPlaceholder, setKey]

/-! The claims. -/

/-- C1 (amended): when some value name is still bound to a forward-reference
placeholder at finalize, finalize reports exactly the undeclared-value
errors, sorted ascending by first-use location, and returns the overall
parse failure at once; deferred-location errors are not reported in that
case (they are only diagnosed when no placeholder remains). -/
theorem c1_value_errors_preempt_location_errors (st : FinalizeState)
    (h : st.forwardRefPlaceholders ≠ []) :
    (finalize st).diags =
      (sortLocs (st.forwardRefPlaceholders.map (fun p => p.2))).map
        (fun l => (⟨l, "use of undeclared SSA value name", none, none⟩ : Diag)) ∧
    (finalize st).success = false ∧
    List.Pairwise (fun a b => a.loc ≤ b.loc) (finalize st).diags := by
  cases hfp : st.forwardRefPlaceholders with
  | nil => exact absurd hfp h
  | cons a l =>
    have hd : finalize st =
        ⟨(sortLocs (st.forwardRefPlaceholders.map (fun p => p.2))).map
          (fun x => (⟨x, "use of undeclared SSA value name", none, none⟩ : Diag)),
         st.opOrArguments, [], false⟩ := by
      unfold finalize
      rw [hfp]
    refine ⟨by rw [hd, hfp], by rw [hd], ?_⟩
    rw [hd]
    exact List.Pairwise.map _ (fun a b hab => hab) (sortLocs_pairwise _)

/-- C1 counterexample: a parse state holding both a leftover placeholder
(first used at location 5) and a deferred location reference whose alias is
never defined (the location error that resolution would report is exhibited
by the third conjunct); finalize reports only the undeclared-value error, so
the two error classes do not accumulate. -/
theorem c1_counterexample :
    placeholderAndLocState.forwardRefPlaceholders ≠ [] ∧
    lookupKey (String.mk ['L']) placeholderAndLocState.attributeAliasDefinitions = none ∧
    resolveLocation placeholderAndLocState.attributeAliasDefinitions
        placeholderAndLocState.deferredLocsReferences (MLoc.deferred 0) =
      Except.error ⟨9, "operation location alias was never defined", none, none⟩ ∧
    (finalize placeholderAndLocState).diags =
      [⟨5, "use of undeclared SSA value name", none, none⟩] ∧
    (finalize placeholderAndLocState).success = false := by
  refine ⟨?_, ?_, ?_, rfl, rfl⟩
  · simp [placeholderAndLocState]
  · rfl
  · rfl

/-- C1 witness: the amended statement evaluated on the state of the
counterexample. -/
theorem c1_witness :
    placeholderAndLocState.forwardRefPlaceholders ≠ [] ∧
    ((finalize placeholderAndLocState).diags =
      (sortLocs (placeholderAndLocState.forwardRefPlaceholders.map (fun p => p.2))).map
        (fun l => (⟨l, "use of undeclared SSA value name", none, none⟩ : Diag)) ∧
    (finalize placeholderAndLocState).success = false ∧
    List.Pairwise (fun a b => a.loc ≤ b.loc) (finalize placeholderAndLocState).diags) :=
  ⟨by simp [placeholderAndLocState],
   c1_value_errors_preempt_location_errors placeholderAndLocState
     (by simp [placeholderAndLocState])⟩

/-- C2 (amended): if the parse succeeds at finalize then no forward-reference
placeholder remains (equivalently, a remaining placeholder forces failure);
the converse direction of the claimed equivalence is false, since a parse
with no remaining placeholder can still fail. -/
theorem c2_success_implies_no_placeholders (st : FinalizeState)
    (h : (finalize st).success = true) : st.forwardRefPlaceholders = [] := by
  cases hfp : st.forwardRefPlaceholders with
  | nil => rfl
  | cons a l =>
    have hs : (finalize st).success = false := by
      unfold finalize
      rw [hfp]
    rw [hs] at h
    exact absurd h (by simp)

/-- C2 counterexample: a parse state with an empty placeholder set whose
finalize nevertheless fails (its deferred location alias is never defined),
refuting the claimed if-and-only-if. -/
theorem c2_counterexample :
    unresolvedLocOnlyState.forwardRefPlaceholders = [] ∧
    (finalize unresolvedLocOnlyState).success = false := by
  exact ⟨rfl, rfl⟩

/-- C2 witness: a fully resolved parse state on which finalize succeeds and
the theorem yields the empty placeholder set. -/
theorem c2_witness :
    (finalize cleanState).success = true ∧
    cleanState.forwardRefPlaceholders = [] :=
  ⟨rfl, c2_success_implies_no_placeholders cleanState rfl⟩

/-- C8: a trailing loc alias whose definition is not yet known at parse
time parses successfully, recording a deferred-location reference and a
marker; at finalize, if the alias was meanwhile defined as a location the
marker is patched to it and finalize succeeds, if it was never defined
finalize fails with the never-defined error at the reference location, and
if it was defined as a non-location value finalize fails with the
expected-location error naming the value found. -/
theorem c8_deferred_location_alias (defsParse defsFinal : List (String × MAttr))
    (refs : List DeferredLocInfo) (tokLoc : Nat) (id : String)
    (hparse : lookupKey id defsParse = none) :
    parseLocationAlias defsParse refs tokLoc id =
      Except.ok (MLoc.deferred refs.length, refs ++ [⟨tokLoc, id⟩]) ∧
    (match lookupKey id defsFinal with
     | some (MAttr.locAttr l) =>
        finalize (singleOpFinalizeState defsFinal (refs ++ [⟨tokLoc, id⟩])
            (MLoc.deferred refs.length)) = ⟨[], [MLoc.known l], [], true⟩
     | none =>
        finalize (singleOpFinalizeState defsFinal (refs ++ [⟨tokLoc, id⟩])
            (MLoc.deferred refs.length)) =
          ⟨[⟨tokLoc, "operation location alias was never defined", none, none⟩],
           [MLoc.deferred refs.length], [], false⟩
     | some (MAttr.other s) =>
        finalize (singleOpFinalizeState defsFinal (refs ++ [⟨tokLoc, id⟩])
            (MLoc.deferred refs.length)) =
          ⟨[⟨tokLoc, "expected location, but found " ++ s, none, none⟩],
           [MLoc.deferred refs.length], [], false⟩) := by
  have hinfo : getDeferredInfo (refs ++ [⟨tokLoc, id⟩]) refs.length = ⟨tokLoc, id⟩ :=
    getDeferredInfo_append_length refs ⟨tokLoc, id⟩
  constructor
  · unfold parseLocationAlias
    rw [hparse]
  · rcases hdef : lookupKey id defsFinal with _ | a
    · simp only [hdef]
      simp [finalize, singleOpFinalizeState, walkResolve, resolveLocation, hinfo,
            hdef, popSSANameScope]
    · cases a with
      | locAttr l =>
        simp only [hdef]
        simp [finalize, singleOpFinalizeState, walkResolve, resolveLocation, hinfo,
              hdef, popSSANameScope]
      | other s =>
        simp only [hdef]
        simp [finalize, singleOpFinalizeState, walkResolve, resolveLocation, hinfo,
              hdef, popSSANameScope]

/-- C8 witness: a file whose single operation carries loc referencing alias
L at location 3, with L undefined while parsing the operation and defined as
the location 7 later in the file; parsing defers and finalize patches the
location and succeeds. -/
theorem c8_witness :
    lookupKey (String.mk ['L']) ([] : List (String × MAttr)) = none ∧
    parseLocationAlias [] [] 3 (String.mk ['L']) =
      Except.ok (MLoc.deferred 0, [⟨3, String.mk ['L']⟩]) ∧
    finalize (singleOpFinalizeState [(String.mk ['L'], MAttr.locAttr 7)]
        [⟨3, String.mk ['L']⟩] (MLoc.deferred 0)) =
      ⟨[], [MLoc.known 7], [], true⟩ := by
  have h := c8_deferred_location_alias [] [(String.mk ['L'], MAttr.locAttr 7)] []
    3 (String.mk ['L']) rfl
  refine ⟨rfl, ?_, ?_⟩
  · simpa using h.1
  · exact h.2

/-- C5: a value name first used (resolved) at location L1 with type T1, used
again at L2 with the same type (the binding is unchanged, so L1 stays the
recorded location), and then defined at L3 with a different type T2 is
rejected with the type-mismatch error, whose attached note points at L1, the
location of the first use. -/
theorem c5_forward_use_type_mismatch (name : String) (n L1 L2 L3 T1 T2 vid : Nat)
    (hT : T1 ≠ T2) :
    (resolveSSAUse (resolveSSAUse ⟨[], [], 0⟩ ⟨name, n, L1⟩ T1).1 ⟨name, n, L2⟩ T1).2 =
      Except.ok ⟨0, T1⟩ ∧
    (resolveSSAUse (resolveSSAUse ⟨[], [], 0⟩ ⟨name, n, L1⟩ T1).1 ⟨name, n, L2⟩ T1).1 =
      (resolveSSAUse ⟨[], [], 0⟩ ⟨name, n, L1⟩ T1).1 ∧
    (addDefinition (resolveSSAUse ⟨[], [], 0⟩ ⟨name, n, L1⟩ T1).1 ⟨name, n, L3⟩
        ⟨vid, T2⟩).2 =
      Except.error ⟨L3,
        "definition of SSA value " ++ name ++ " has type " ++ toString T2,
        some L1, some ("previously used here with type " ++ toString T1)⟩ := by
  have h1 := resolveSSAUse_fresh name n L1 T1
  generalize hE : setEntry (List.replicate (n + 1) (none : Option ValueDefinition)) n
      ⟨⟨0, T1⟩, L1⟩ = E at h1
  have hlen : E.length = n + 1 := by
    rw [← hE, setEntry_length, List.length_replicate]
  have hget : getEntry E n = some ⟨⟨0, T1⟩, L1⟩ := by
    rw [← hE]
    exact getEntry_setEntry_self _ n _ (by rw [List.length_replicate]; omega)
  have hresize : resize E n = E := by
    rw [resize, if_neg (by omega)]
  have h2 : resolveSSAUse ⟨[(name, E)], [(0, L1)], 1⟩ ⟨name, n, L2⟩ T1 =
      (⟨[(name, E)], [(0, L1)], 1⟩, Except.ok ⟨0, T1⟩) := by
    unfold resolveSSAUse
    simp [getSSAValueEntry, lookupKey, hget]
  have h3 : (addDefinition ⟨[(name, E)], [(0, L1)], 1⟩ ⟨name, n, L3⟩ ⟨vid, T2⟩).2 =
      Except.error ⟨L3,
        "definition of SSA value " ++ name ++ " has type " ++ toString T2,
        some L1, some ("previously used here with type " ++ toString T1)⟩ := by
    unfold addDefinition
    simp [getSSAValueEntry, lookupKey, hresize, hget, isForwardRefPlaceholder, hT]
  rw [h1]
  exact ⟨congrArg Prod.snd h2, congrArg Prod.fst h2, h3⟩

/-- C5 witness: name x first used at location 1 with type 10, used again at
location 2, then defined at location 3 with type 20; the definition is
rejected and the note points at location 1. -/
theorem c5_witness :
    (10 : Nat) ≠ 20 ∧
    ((resolveSSAUse (resolveSSAUse ⟨[], [], 0⟩ ⟨String.mk ['x'], 0, 1⟩ 10).1
        ⟨String.mk ['x'], 0, 2⟩ 10).2 = Except.ok ⟨0, 10⟩ ∧
    (resolveSSAUse (resolveSSAUse ⟨[], [], 0⟩ ⟨String.mk ['x'], 0, 1⟩ 10).1
        ⟨String.mk ['x'], 0, 2⟩ 10).1 =
      (resolveSSAUse ⟨[], [], 0⟩ ⟨String.mk ['x'], 0, 1⟩ 10).1 ∧
    (addDefinition (resolveSSAUse ⟨[], [], 0⟩ ⟨String.mk ['x'], 0, 1⟩ 10).1
        ⟨String.mk ['x'], 0, 3⟩ ⟨4, 20⟩).2 =
      Except.error ⟨3,
        "definition of SSA value " ++ String.mk ['x'] ++ " has type " ++ toString (20 : Nat),
        some 1, some ("previously used here with type " ++ toString (10 : Nat))⟩) :=
  ⟨by decide, c5_forward_use_type_mismatch (String.mk ['x']) 0 1 2 3 10 20 4 (by decide)⟩

/-- C3: a block label first referenced as a branch target before its
definition resolves every reference site to one and the same block (the
second reference returns the identical block and leaves the registry
unchanged), and defining the label afterwards clears its forward-reference
entry and returns precisely that block, so all prior branch references
remain valid. -/
theorem c3_block_identity (st : BlockScopeState) (name : String)
    (loc1 loc2 defLoc : Nat) (h : (getBlockInfoByName st name).block = none) :
    (getBlockNamed (getBlockNamed st name loc1).1 name loc2).2 =
      (getBlockNamed st name loc1).2 ∧
    (getBlockNamed (getBlockNamed st name loc1).1 name loc2).1 =
      (getBlockNamed st name loc1).1 ∧
    defineBlockNamed (getBlockNamed (getBlockNamed st name loc1).1 name loc2).1
        name defLoc =
      Except.ok
        (⟨setKey name ⟨some st.nextBlockId, defLoc⟩
            (setKey name ⟨some st.nextBlockId, loc1⟩ st.blocksByName),
          (st.forwardRef ++ [(st.nextBlockId, loc1)]).filter
            (fun p => p.1 != st.nextBlockId),
          st.nextBlockId + 1⟩, (getBlockNamed st name loc1).2) := by
  have h1 : getBlockNamed st name loc1 =
      (⟨setKey name ⟨some st.nextBlockId, loc1⟩ st.blocksByName,
        st.forwardRef ++ [(st.nextBlockId, loc1)], st.nextBlockId + 1⟩,
       st.nextBlockId) := by
    unfold getBlockNamed
    dsimp only
    rw [h]
  have hbi : getBlockInfoByName
      ⟨setKey name ⟨some st.nextBlockId, loc1⟩ st.blocksByName,
       st.forwardRef ++ [(st.nextBlockId, loc1)], st.nextBlockId + 1⟩ name =
      ⟨some st.nextBlockId, loc1⟩ := by
    unfold getBlockInfoByName
    rw [lookupKey_setKey_self]
    rfl
  have h2 : getBlockNamed
      ⟨setKey name ⟨some st.nextBlockId, loc1⟩ st.blocksByName,
       st.forwardRef ++ [(st.nextBlockId, loc1)], st.nextBlockId + 1⟩ name loc2 =
      (⟨setKey name ⟨some st.nextBlockId, loc1⟩ st.blocksByName,
        st.forwardRef ++ [(st.nextBlockId, loc1)], st.nextBlockId + 1⟩,
       st.nextBlockId) := by
    unfold getBlockNamed
    dsimp only
    rw [hbi]
  have hany : ((st.forwardRef ++ [(st.nextBlockId, loc1)]).any
      (fun p => p.1 == st.nextBlockId)) = true := by
    simp
  have h3 : defineBlockNamed
      ⟨setKey name ⟨some st.nextBlockId, loc1⟩ st.blocksByName,
       st.forwardRef ++ [(st.nextBlockId, loc1)], st.nextBlockId + 1⟩ name defLoc =
      Except.ok
        (⟨setKey name ⟨some st.nextBlockId, defLoc⟩
            (setKey name ⟨some st.nextBlockId, loc1⟩ st.blocksByName),
          (st.forwardRef ++ [(st.nextBlockId, loc1)]).filter
            (fun p => p.1 != st.nextBlockId),
          st.nextBlockId + 1⟩, st.nextBlockId) := by
    unfold defineBlockNamed
    dsimp only
    rw [hbi]
    simp [hany]
  rw [h1, h2]
  exact ⟨rfl, rfl, h3⟩

/-- C3 witness: label bb1 referenced twice (at locations 1 and 2) before its
definition at location 3; both references and the definition all yield
block 0. -/
theorem c3_witness :
    (getBlockInfoByName ⟨[], [], 0⟩ (String.mk ['b', 'b', '1'])).block = none ∧
    ((getBlockNamed (getBlockNamed ⟨[], [], 0⟩ (String.mk ['b', 'b', '1']) 1).1
        (String.mk ['b', 'b', '1']) 2).2 =
      (getBlockNamed ⟨[], [], 0⟩ (String.mk ['b', 'b', '1']) 1).2 ∧
    (getBlockNamed (getBlockNamed ⟨[], [], 0⟩ (String.mk ['b', 'b', '1']) 1).1
        (String.mk ['b', 'b', '1']) 2).1 =
      (getBlockNamed ⟨[], [], 0⟩ (String.mk ['b', 'b', '1']) 1).1 ∧
    defineBlockNamed
        (getBlockNamed (getBlockNamed ⟨[], [], 0⟩ (String.mk ['b', 'b', '1']) 1).1
          (String.mk ['b', 'b', '1']) 2).1 (String.mk ['b', 'b', '1']) 3 =
      Except.ok
        (⟨setKey (String.mk ['b', 'b', '1']) ⟨some 0, 3⟩
            (setKey (String.mk ['b', 'b', '1']) ⟨some 0, 1⟩ []),
          ([] ++ [(0, 1)]).filter (fun p => p.1 != 0),
          0 + 1⟩, (getBlockNamed ⟨[], [], 0⟩ (String.mk ['b', 'b', '1']) 1).2)) :=
  ⟨rfl, c3_block_identity ⟨[], [], 0⟩ (String.mk ['b', 'b', '1']) 1 2 3 rfl⟩

/-- C4 (amended): when a name scope with still-forward-declared blocks is
popped, every such block produces one reference-to-an-undefined-block error,
the errors are reported in ascending first-use source order, each orphaned
block is attached to region 0 of the top-level operation (not to the nearest
enclosing container) so its stray operand uses can be torn down uniformly,
and the pop fails the parse. -/
theorem c4_undefined_blocks_on_pop (top : List (Nat × Nat))
    (rest : List (List (Nat × Nat))) (h : top ≠ []) :
    (popSSANameScope (top :: rest)).success = false ∧
    (popSSANameScope (top :: rest)).attached = top.map (fun p => (p.1, 0)) ∧
    (popSSANameScope (top :: rest)).diags =
      (sortPairs (top.map (fun p => (p.2, p.1)))).map
        (fun p => (⟨p.1, "reference to an undefined block", none, none⟩ : Diag)) ∧
    (popSSANameScope (top :: rest)).diags.length = top.length ∧
    List.Pairwise (fun a b => a.loc ≤ b.loc) (popSSANameScope (top :: rest)).diags := by
  cases top with
  | nil => exact absurd rfl h
  | cons t ts =>
    refine ⟨rfl, rfl, rfl, ?_, ?_⟩
    · show ((sortPairs ((t :: ts).map (fun p => (p.2, p.1)))).map
        (fun p => (⟨p.1, "reference to an undefined block", none, none⟩ : Diag))).length =
        (t :: ts).length
      rw [List.length_map, sortPairs_length, List.length_map]
    · exact List.Pairwise.map _ (fun a b hab => hab)
        (sortPairs_pairwise ((t :: ts).map (fun p => (p.2, p.1))))

/-- C4 counterexample: one undefined block (identity 7, first used at
location 3) in a scope whose nearest enclosing container is container 5; the
code attaches the orphan to container 0 (region 0 of the top-level
operation), not to container 5 as the claim states. -/
theorem c4_counterexample :
    (popSSANameScope [[(7, 3)]]).attached = [(7, 0)] ∧
    (popSSANameScopeSpecVersion 5 [[(7, 3)]]).attached = [(7, 5)] ∧
    (popSSANameScope [[(7, 3)]]).attached ≠
      (popSSANameScopeSpecVersion 5 [[(7, 3)]]).attached := by
  refine ⟨rfl, rfl, ?_⟩
  decide

/-- C4 witness: the amended statement evaluated on a scope holding two
undefined blocks, identities 7 and 8, first used at locations 9 and 3. -/
theorem c4_witness :
    ([(7, 9), (8, 3)] : List (Nat × Nat)) ≠ [] ∧
    ((popSSANameScope [[(7, 9), (8, 3)]]).success = false ∧
    (popSSANameScope [[(7, 9), (8, 3)]]).attached =
      ([(7, 9), (8, 3)] : List (Nat × Nat)).map (fun p => (p.1, 0)) ∧
    (popSSANameScope [[(7, 9), (8, 3)]]).diags =
      (sortPairs (([(7, 9), (8, 3)] : List (Nat × Nat)).map (fun p => (p.2, p.1)))).map
        (fun p => (⟨p.1, "reference to an undefined block", none, none⟩ : Diag)) ∧
    (popSSANameScope [[(7, 9), (8, 3)]]).diags.length =
      ([(7, 9), (8, 3)] : List (Nat × Nat)).length ∧
    List.Pairwise (fun a b => a.loc ≤ b.loc) (popSSANameScope [[(7, 9), (8, 3)]]).diags) :=
  ⟨by decide, c4_undefined_blocks_on_pop [(7, 9), (8, 3)] [] (by decide)⟩

/-- C6 (amended): for an operation parsed with a result-name list that
produces at least one result, a mismatch between the produced result count
and the sum of the declared group sizes fails with the error stating the
number of results the operation defines versus the number provided to bind;
an operation producing zero results fails instead with the error that an
operation with no results cannot be named. -/
theorem c6_result_count_mismatch (resultIDs : List (String × Nat × Nat))
    (numExpectedResults opLoc numResults : Nat) (hne : resultIDs ≠ [])
    (hnz : numResults ≠ 0) (hdiff : numExpectedResults ≠ numResults) :
    checkResultBinding resultIDs numExpectedResults opLoc numResults =
      Except.error ⟨opLoc, "operation defines " ++ toString numResults ++
        " results but was provided " ++ toString numExpectedResults ++ " to bind",
        none, none⟩ := by
  cases resultIDs with
  | nil => exact absurd rfl hne
  | cons r rs =>
    unfold checkResultBinding
    rw [if_neg hnz, if_pos hdiff]

/-- C6 counterexample: a result-name list declaring 3 results on an
operation producing 0 results; the produced count differs from the declared
sum, yet the reported error is the cannot-name message, not the
defines-versus-provided message the claim requires for every mismatch. -/
theorem c6_counterexample :
    (0 : Nat) ≠ 3 ∧
    checkResultBinding [(String.mk ['r'], 3, 0)] 3 0 0 =
      Except.error ⟨0, "cannot name an operation with no results", none, none⟩ ∧
    checkResultBinding [(String.mk ['r'], 3, 0)] 3 0 0 ≠
      Except.error ⟨0, "operation defines " ++ toString (0 : Nat) ++
        " results but was provided " ++ toString (3 : Nat) ++ " to bind",
        none, none⟩ := by
  refine ⟨by decide, rfl, ?_⟩
  intro hcontra
  have hd : Except.error (ε := Diag) (α := Unit)
      ⟨0, "cannot name an operation with no results", none, none⟩ =
      Except.error ⟨0, "operation defines " ++ toString (0 : Nat) ++
        " results but was provided " ++ toString (3 : Nat) ++ " to bind",
        none, none⟩ := by
    rw [← hcontra]
    rfl
  have hmsg := congrArg Diag.msg (Except.error.inj hd)
  exact absurd hmsg (by decide)

/-- C6 witness: the result list of the scenario with one entry r of declared
group size 3 parses to numExpectedResults 3, and binding it against an
operation producing 1 result fails with the defines-versus-provided
error. -/
theorem c6_witness :
    parseResultIdList [⟨String.mk ['r'], 0, some (some 3)⟩] =
      Except.ok ([(String.mk ['r'], 3, 0)], 3) ∧
    checkResultBinding [(String.mk ['r'], 3, 0)] 3 0 1 =
      Except.error ⟨0, "operation defines " ++ toString (1 : Nat) ++
        " results but was provided " ++ toString (3 : Nat) ++ " to bind",
        none, none⟩ :=
  ⟨rfl, c6_result_count_mismatch [(String.mk ['r'], 3, 0)] 3 0 1
    (by simp) (by decide) (by decide)⟩

/-- C7: in the generic operation form a bracketed successor list is an
error for an operation that is not statically known to be a terminator, and
for an operation statically known to be a terminator the parsed successor
blocks are attached. -/
theorem c7_successors_only_on_terminators (loc : Nat) (succ : List Nat)
    (staticallyKnownTerminator : Bool) :
    parseSuccessorsSection true loc staticallyKnownTerminator succ =
      (if staticallyKnownTerminator then Except.ok succ
       else Except.error ⟨loc, "successors in non-terminator", none, none⟩) := by
  cases staticallyKnownTerminator <;> rfl

/-- C10: a result-list entry with an explicit group size below 1 (including
an integer token too large for uint64) is rejected with the
at-least-1-result error, and a result-name list on an operation producing
zero results is rejected with the cannot-name error. -/
theorem c10_result_group_size_positive (name : String) (tokLoc k : Nat)
    (resultIDs : List (String × Nat × Nat)) (numExpectedResults opLoc : Nat)
    (hk : k < 1) (hne : resultIDs ≠ []) :
    parseNextResult ⟨name, tokLoc, some (some k)⟩ =
      Except.error ⟨tokLoc, "expected named operation to have at least 1 result",
        none, none⟩ ∧
    parseNextResult ⟨name, tokLoc, some none⟩ =
      Except.error ⟨tokLoc, "expected named operation to have at least 1 result",
        none, none⟩ ∧
    checkResultBinding resultIDs numExpectedResults opLoc 0 =
      Except.error ⟨opLoc, "cannot name an operation with no results", none, none⟩ := by
  refine ⟨?_, rfl, ?_⟩
  · unfold parseNextResult
    dsimp only
    rw [if_pos hk]
  · cases resultIDs with
    | nil => exact absurd rfl hne
    | cons r rs =>
      unfold checkResultBinding
      rw [if_pos rfl]

/-- C10 witness: the entry r with declared count 0 at location 2 is
rejected, an overflowing count token is rejected, and naming the single
entry r against an operation with zero results at location 4 is rejected. -/
theorem c10_witness :
    (0 : Nat) < 1 ∧ ([(String.mk ['r'], 1, 0)] : List (String × Nat × Nat)) ≠ [] ∧
    (parseNextResult ⟨String.mk ['r'], 2, some (some 0)⟩ =
      Except.error ⟨2, "expected named operation to have at least 1 result",
        none, none⟩ ∧
    parseNextResult ⟨String.mk ['r'], 2, some none⟩ =
      Except.error ⟨2, "expected named operation to have at least 1 result",
        none, none⟩ ∧
    checkResultBinding [(String.mk ['r'], 1, 0)] 1 4 0 =
      Except.error ⟨4, "cannot name an operation with no results", none, none⟩) :=
  ⟨by decide, by simp,
   c10_result_group_size_positive (String.mk ['r']) 2 0 [(String.mk ['r'], 1, 0)] 1 4
     (by decide) (by simp)⟩

end AsmParserModel